import Mathlib

/-!
Shallow embedding of the CO/PO attainment pipeline of this repository
(`cgpa_calculator.py`, plus the cluster-labeling snippets of `app.py`).

Python floats are modelled as rationals (`ℚ`); a pandas `NaN` cell is
modelled as `Option.none`; a fallible pandas lookup (`.iloc[0]` on an
empty selection) is modelled with `Option`.  Python string operations
(`str.split(',')`, `str.strip()`) are modelled over the character list
of the string, matching Python's semantics.
-/

namespace CGPA

/-- Grading coefficients from `CGPACalculator.__init__` (`self.weights`):
mid 0.30, final 0.40, ct 0.15, assignment 0.10, attendance 0.05. -/
def weight_mid : ℚ := 3/10

/-- `self.weights['final'] = 0.40`. -/
def weight_final : ℚ := 2/5

/-- `self.weights['ct'] = 0.15`. -/
def weight_ct : ℚ := 3/20

/-- `self.weights['assignment'] = 0.10`. -/
def weight_assignment : ℚ := 1/10

/-- `self.weights['attendance'] = 0.05`. -/
def weight_attendance : ℚ := 1/20

/-- One assessment component of a student row: its raw mark cell
(`{component}_marks`, `none` = NaN) and its CO-tag cell
(`{component}_co_mapping`, `none` = NaN). -/
structure Component where
  mark : Option ℚ
  co_mapping : Option String
deriving DecidableEq

/-- A student row restricted to the cells the calculator reads: the five
assessment components (mid, final, ct, assignment, attendance). -/
structure StudentRow where
  mid : Component
  final : Component
  ct : Component
  assignment : Component
  attendance : Component
deriving DecidableEq

/-- `marks_to_grade` of `cgpa_calculator.py`: the if/elif chain of
inclusive lower bounds, from `>= 90 → ('A+', 4.0)` down to `('F', 0.0)`. -/
def marks_to_grade (percentage : ℚ) : String × ℚ :=
  if percentage ≥ 90 then ("A+", 4)
  else if percentage ≥ 85 then ("A", 37/10)
  else if percentage ≥ 80 then ("A-", 33/10)
  else if percentage ≥ 75 then ("B+", 3)
  else if percentage ≥ 70 then ("B", 27/10)
  else if percentage ≥ 65 then ("B-", 23/10)
  else if percentage ≥ 60 then ("C+", 2)
  else if percentage ≥ 55 then ("C", 17/10)
  else if percentage ≥ 50 then ("C-", 13/10)
  else if percentage ≥ 45 then ("D+", 1)
  else if percentage ≥ 40 then ("D", 7/10)
  else ("F", 0)

/-- `calculate_total_marks`: `mid*0.30 + final*0.40 + ct*0.15 +
assignment*0.10 + attendance*0.05` over the raw mark cells.  A missing
(NaN) mark poisons the arithmetic in Python; here it yields `none`. -/
def calculate_total_marks (row : StudentRow) : Option ℚ := do
  let m ← row.mid.mark
  let f ← row.final.mark
  let c ← row.ct.mark
  let a ← row.assignment.mark
  let t ← row.attendance.mark
  pure (m * weight_mid + f * weight_final + c * weight_ct +
    a * weight_assignment + t * weight_attendance)

/-- Python `co.strip()` on the character list of a string: drop leading
and trailing whitespace. -/
def py_strip (s : List Char) : List Char :=
  ((s.dropWhile Char.isWhitespace).reverse.dropWhile Char.isWhitespace).reverse

/-- Python `co_string.split(',')` on the character list: split at every
comma, keeping empty pieces (Python: `''.split(',') == ['']`). -/
def py_split_comma (s : List Char) : List (List Char) :=
  s.splitOn ','

/-- `parse_co_mapping`: `[]` when the cell is NaN or the empty string,
otherwise split on commas and strip every piece. -/
def parse_co_mapping (co_string : Option String) : List String :=
  match co_string with
  | none => []
  | some s =>
    if s = "" then []
    else (py_split_comma s.toList).map (fun l => String.mk (py_strip l))

/-- The loop body of `calculate_co_achievement` for one component: the
pair (increment of `total_co_score`, increment of `total_weighted_score`).
A component with a NaN mark or NaN CO cell, or whose parsed tag list does
not contain `co_name`, contributes `(0, 0)`. -/
def component_contribution (comp : Component) (w maxm : ℚ) (co_name : String) :
    ℚ × ℚ :=
  match comp.mark, comp.co_mapping with
  | some mark, some cstr =>
    let cos := parse_co_mapping (some cstr)
    if co_name ∈ cos then
      let co_share := if cos.length > 0 then mark / cos.length else mark
      ((co_share / maxm) * w * 100, w * 100)
    else (0, 0)
  | _, _ => (0, 0)

/-- The `co_weightage` table of `calculate_co_achievement`, paired with
the row's component cells: (cells, weight, max_marks) for mid/30,
final/40, ct/15, assignment/10, attendance/5, in loop order. -/
def row_components (row : StudentRow) : List (Component × ℚ × ℚ) :=
  [(row.mid, weight_mid, 30), (row.final, weight_final, 40),
   (row.ct, weight_ct, 15), (row.assignment, weight_assignment, 10),
   (row.attendance, weight_attendance, 5)]

/-- `calculate_co_achievement`: accumulate the per-component score and
weight increments over the five components, then return
`total_co_score / total_weighted_score * 100` when the accumulated
weight is positive, else `0`. -/
def calculate_co_achievement (row : StudentRow) (co_name : String) : ℚ :=
  let totals := (row_components row).foldl
    (fun acc p =>
      (acc.1 + (component_contribution p.1 p.2.1 p.2.2 co_name).1,
       acc.2 + (component_contribution p.1 p.2.1 p.2.2 co_name).2))
    ((0 : ℚ), (0 : ℚ))
  if 0 < totals.2 then totals.1 / totals.2 * 100 else 0

/-- Whether a component "maps to" a CO: its mark cell and its CO-tag
cell are both non-NaN and the parsed tag list contains the CO. -/
def maps_to (comp : Component) (co_name : String) : Bool :=
  match comp.mark, comp.co_mapping with
  | some _, some cstr => (parse_co_mapping (some cstr)).contains co_name
  | _, _ => false

/-- The claim's per-component numerator term for one CO:
`((mark / tagCount) / componentMax) * componentWeight` for a component
that maps to the CO, `0` otherwise. -/
def spec_num_term (comp : Component) (w maxm : ℚ) (co_name : String) : ℚ :=
  match comp.mark, comp.co_mapping with
  | some mark, some cstr =>
    if co_name ∈ parse_co_mapping (some cstr) then
      ((mark / (parse_co_mapping (some cstr)).length) / maxm) * w
    else 0
  | _, _ => 0

/-- The claim's per-component denominator term for one CO:
`componentWeight` for a component that maps to the CO, `0` otherwise. -/
def spec_den_term (comp : Component) (w : ℚ) (co_name : String) : ℚ :=
  match comp.mark, comp.co_mapping with
  | some _, some cstr =>
    if co_name ∈ parse_co_mapping (some cstr) then w else 0
  | _, _ => 0

/-- The claim's CO-achievement numerator: the sum of the per-component
numerator terms over the five components. -/
def spec_co_numerator (row : StudentRow) (co_name : String) : ℚ :=
  ((row_components row).map (fun p => spec_num_term p.1 p.2.1 p.2.2 co_name)).sum

/-- The claim's CO-achievement denominator: the sum of the component
weights over the components that map to the CO. -/
def spec_co_denominator (row : StudentRow) (co_name : String) : ℚ :=
  ((row_components row).map (fun p => spec_den_term p.1 p.2.1 co_name)).sum

/-- One row of the CO-PO weight matrix (`co_po_mapping`): the
`Course_Outcome` key column and the numeric PO columns, modelled as a
lookup from PO column name to weight. -/
structure CoPoRow where
  course_outcome : String
  po_weights : String → ℚ

/-- The fixed PO list of `calculate_po_attainment`:
`[f'PO{i}' for i in range(1, 13)]`. -/
def po_list : List String :=
  ["PO1", "PO2", "PO3", "PO4", "PO5", "PO6",
   "PO7", "PO8", "PO9", "PO10", "PO11", "PO12"]

/-- The lookup
`co_po_mapping.loc[co_po_mapping['Course_Outcome'] == co, po].iloc[0]`:
the `po` column of the first matrix row whose `Course_Outcome` equals
`co`; `none` models the `IndexError` raised by `.iloc[0]` when no row
matches. -/
def lookup_co_weight (matrix : List CoPoRow) (co po : String) : Option ℚ :=
  ((matrix.filter (fun r => r.course_outcome == co)).head?).map
    (fun r => r.po_weights po)

/-- The body of the CO loop of `calculate_po_attainment`: look up the
weight of `co` for this PO (a missing matrix row aborts with `none`,
modelling the `IndexError` of `.iloc[0]`); a weight `> 0` accumulates
`achievement * weight` into `po_score` (the first accumulator slot) and
`weight` into `total_co_weight` (the second slot). -/
def po_step (ach : String → ℚ) (matrix : List CoPoRow) (po : String)
    (acc : ℚ × ℚ) (co : String) : Option (ℚ × ℚ) := do
  let co_weight ← lookup_co_weight matrix co po
  if 0 < co_weight then
    pure (acc.1 + ach (co ++ "_achievement") * co_weight, acc.2 + co_weight)
  else
    pure acc

/-- The inner loop of `calculate_po_attainment` for one student row and
one PO.  `ach` models `row.get(f'{co}_achievement', 0)` (cell value, `0`
for a missing column).  The loop folds `po_step` over `co_list`; the
resulting cell is `po_score / total_co_weight` when the accumulated
weight is positive, else the initial `0.0`. -/
def calculate_po_attainment_row (ach : String → ℚ) (matrix : List CoPoRow)
    (co_list : List String) (po : String) : Option ℚ := do
  let totals ← co_list.foldlM (po_step ach matrix po) ((0 : ℚ), (0 : ℚ))
  pure (if 0 < totals.2 then totals.1 / totals.2 else 0)

/-- A processed student table as the clustering code sees it: its column
names and its rows (each row a map from column name to cell value). -/
structure DataFrame where
  columns : List String
  rows : List (String → ℚ)

/-- Per-cluster summary entry built by `student_clustering`: member
count, mean grade points, and the mean of every feature used. -/
structure ClusterInfo where
  size : ℕ
  avg_cgpa : ℚ
  characteristics : List (String × ℚ)

/-- The feature-name gathering loops of `student_clustering`: every
`{co}_achievement` column present in the table, in `co_list` order,
followed by every `{po}_attainment` column present, in `po_list` order. -/
def gather_feature_names (df : DataFrame) (co_list po_list : List String) :
    List String :=
  (co_list.filter (fun co => df.columns.contains (co ++ "_achievement"))).map
      (fun co => co ++ "_achievement") ++
    (po_list.filter (fun po => df.columns.contains (po ++ "_attainment"))).map
      (fun po => po ++ "_attainment")

/-- `student_clustering`: when the gathered feature list is empty the
function returns `(df, {})` without scaling or clustering; otherwise it
scales, runs k-means and summarizes — that branch is the abstract
`cluster_step` argument (MinMaxScaler + KMeans are external library
calls). -/
def student_clustering
    (cluster_step : List String → DataFrame → DataFrame × List (ℕ × ClusterInfo))
    (df : DataFrame) (co_list po_list : List String) :
    DataFrame × List (ℕ × ClusterInfo) :=
  let feature_names := gather_feature_names df co_list po_list
  if feature_names = [] then (df, [])
  else cluster_step feature_names df

/-- The fixed label list of `app.py` (`show_teacher_analysis` line 480 and
`show_teacher_portal` line 1236): index 0 = high, 1 = average, 2 = low. -/
def cluster_names : List String :=
  ["🌟 High Performer", "📊 Average Performer", "📈 Needs Improvement"]

/-- `app.py`, `show_teacher_analysis` lines 479–482: the performance-group
label shown for a student is `cluster_names[cluster_id]` with the raw
cluster id (`int(student['performance_cluster'])`, defaulting to 1 when
the cell is `None`). -/
def performance_group_label (performance_cluster : Option ℕ) : String :=
  match performance_cluster with
  | some cid => cluster_names.getD cid ""
  | none => cluster_names.getD 1 ""

/-- Modelled from the spec: the rank of a cluster when the three cluster
means of grade-point value are sorted descending — the number of clusters
strictly above it (ties broken by index).  The spec (§4.4, §9) requires
the {high, average, low} labels to be assigned by this ranking; the
ranking labeler itself is absent from the source. -/
def rank_of_cluster (means : Fin 3 → ℚ) (cid : Fin 3) : ℕ :=
  ((List.finRange 3).filter
    (fun j => decide (means cid < means j ∨ (means j = means cid ∧ j < cid)))).length

/-- Modelled from the spec: the {high, average, low} label a compliant
labeler would show, obtained by remapping the cluster index through the
ranking of mean grade points. -/
def ranked_label (means : Fin 3 → ℚ) (cid : Fin 3) : String :=
  cluster_names.getD (rank_of_cluster means cid) ""

/-- Cluster means of grade-point value where cluster 0 is the weakest
group and cluster 2 the strongest: 1.0, 2.0, 4.0. -/
def example_means : Fin 3 → ℚ :=
  fun i => if i = 0 then 1 else if i = 1 then 2 else 4

/-- The claim's PO-attainment numerator over a CO list:
`sum(coAchievement[co] * weight[co,po])` over the COs whose weight for
this PO is positive (`wf` is the weight column, `ach` the achievement
cells). -/
def po_numerator (ach wf : String → ℚ) (l : List String) : ℚ :=
  ((l.filter (fun co => decide (0 < wf co))).map
    (fun co => ach (co ++ "_achievement") * wf co)).sum

/-- The claim's PO-attainment denominator over a CO list:
`sum(weight[co,po])` over the COs whose weight for this PO is positive. -/
def po_denominator (wf : String → ℚ) (l : List String) : ℚ :=
  ((l.filter (fun co => decide (0 < wf co))).map wf).sum

/-- The spec's grade breakpoint table, highest threshold first:
inclusive lower bound ↦ (grade, grade points). -/
def grade_table : List (ℚ × String × ℚ) :=
  [(90, "A+", 4), (85, "A", 37/10), (80, "A-", 33/10), (75, "B+", 3),
   (70, "B", 27/10), (65, "B-", 23/10), (60, "C+", 2), (55, "C", 17/10),
   (50, "C-", 13/10), (45, "D+", 1), (40, "D", 7/10)]

/-- Modelled from the spec: grade lookup by the inclusive-lower-bound
table with the highest matching threshold winning (the table is sorted
descending, so the first match is the highest), `('F', 0.0)` when no
threshold is met. -/
def table_grade (p : ℚ) : String × ℚ :=
  ((grade_table.find? (fun e => decide (e.1 ≤ p))).map (fun e => e.2)).getD ("F", 0)

/-- The documented end-to-end scenario row: mid=25, final=35, ct=12,
assignment=8, attendance=4, with CO tags over CO1–CO3. -/
def scenario_row : StudentRow :=
  { mid := ⟨some 25, some "CO1,CO2"⟩
    final := ⟨some 35, some "CO2,CO3"⟩
    ct := ⟨some 12, some "CO1"⟩
    assignment := ⟨some 8, some "CO3"⟩
    attendance := ⟨some 4, some "CO1,CO2,CO3"⟩ }

/-- A student row identical to `scenario_row` except that the CO-tag
strings carry spaces after the commas. -/
def scenario_row_spaced : StudentRow :=
  { mid := ⟨some 25, some "CO1, CO2"⟩
    final := ⟨some 35, some "CO2, CO3"⟩
    ct := ⟨some 12, some "CO1"⟩
    assignment := ⟨some 8, some "CO3"⟩
    attendance := ⟨some 4, some "CO1, CO2, CO3"⟩ }

/-- A two-row CO-PO weight matrix: CO1 weighs 3 on PO1, CO2 weighs 2 on
PO1, and both weigh 0 elsewhere. -/
def example_matrix : List CoPoRow :=
  [⟨"CO1", fun p => if p = "PO1" then 3 else 0⟩,
   ⟨"CO2", fun p => if p = "PO1" then 2 else 0⟩]

/-- The PO1 weight column of `example_matrix` as a function on CO names. -/
def example_wf : String → ℚ :=
  fun co => if co = "CO1" then 3 else if co = "CO2" then 2 else 0

/-- Concrete achievement cells: every `{co}_achievement` column holds 50. -/
def example_ach : String → ℚ := fun _ => 50

/-- The all-zero weight column (every CO weighs 0 for the PO). -/
def zero_wf : String → ℚ := fun _ => 0

/-- A one-row weight matrix that has no row for CO2. -/
def example_matrix_missing : List CoPoRow :=
  [⟨"CO1", fun p => if p = "PO1" then 3 else 0⟩]

/-- A student table with no CO-achievement and no PO-attainment columns. -/
def example_df : DataFrame :=
  { columns := ["student_id", "grade_points"], rows := [] }

/-! ## Helper lemmas -/

/-- The loop body of `calculate_co_achievement` computes exactly the
claim's numerator and denominator terms, each scaled by 100. -/
theorem component_contribution_eq (comp : Component) (w maxm : ℚ) (co_name : String) :
    component_contribution comp w maxm co_name =
      (spec_num_term comp w maxm co_name * 100,
       spec_den_term comp w co_name * 100) := by
  rcases comp with ⟨mark, cm⟩
  rcases mark with _ | m <;> rcases cm with _ | s
  · simp [component_contribution, spec_num_term, spec_den_term]
  · simp [component_contribution, spec_num_term, spec_den_term]
  · simp [component_contribution, spec_num_term, spec_den_term]
  · by_cases h : co_name ∈ parse_co_mapping (some s)
    · have hlen : 0 < (parse_co_mapping (some s)).length :=
        List.length_pos.mpr (List.ne_nil_of_mem h)
      simp [component_contribution, spec_num_term, spec_den_term, h, hlen]
    · simp [component_contribution, spec_num_term, spec_den_term, h]

/-- Unfolding the accumulator loop of `calculate_co_achievement` into a
pair of sums over the component list. -/
theorem foldl_contrib_sum (co_name : String) :
    ∀ (l : List (Component × ℚ × ℚ)) (acc : ℚ × ℚ),
      l.foldl (fun acc p =>
        (acc.1 + (component_contribution p.1 p.2.1 p.2.2 co_name).1,
         acc.2 + (component_contribution p.1 p.2.1 p.2.2 co_name).2)) acc =
      (acc.1 + (l.map (fun p => (component_contribution p.1 p.2.1 p.2.2 co_name).1)).sum,
       acc.2 + (l.map (fun p => (component_contribution p.1 p.2.1 p.2.2 co_name).2)).sum)
  | [], acc => by simp
  | p :: l, acc => by
    simp only [List.foldl_cons, List.map_cons, List.sum_cons,
      foldl_contrib_sum co_name l, Prod.mk.injEq]
    exact ⟨by ring, by ring⟩

/-- `calculate_co_achievement` as a weighted average of the claim's
numerator and denominator sums: the factors of 100 accumulated on both
sides of the division cancel. -/
theorem co_achievement_eq (row : StudentRow) (co_name : String) :
    calculate_co_achievement row co_name =
      if 0 < spec_co_denominator row co_name then
        spec_co_numerator row co_name / spec_co_denominator row co_name * 100
      else 0 := by
  simp only [calculate_co_achievement, foldl_contrib_sum, zero_add]
  have hnum : ((row_components row).map
      (fun p => (component_contribution p.1 p.2.1 p.2.2 co_name).1)).sum =
      spec_co_numerator row co_name * 100 := by
    rw [spec_co_numerator, ← List.sum_map_mul_right]
    exact congrArg List.sum (List.map_congr_left (fun p _ => by
      rw [component_contribution_eq]))
  have hden : ((row_components row).map
      (fun p => (component_contribution p.1 p.2.1 p.2.2 co_name).2)).sum =
      spec_co_denominator row co_name * 100 := by
    rw [spec_co_denominator, ← List.sum_map_mul_right]
    exact congrArg List.sum (List.map_congr_left (fun p _ => by
      rw [component_contribution_eq]))
  rw [hnum, hden]
  by_cases h : 0 < spec_co_denominator row co_name
  · rw [if_pos h, if_pos (by positivity),
      mul_div_mul_right _ _ (by norm_num : (100 : ℚ) ≠ 0)]
  · rw [if_neg h, if_neg (by
      intro hc
      exact h (by nlinarith))]

/-- `po_step` on a CO that has a matrix row: the step succeeds, adding
the CO's contribution when its weight is positive. -/
theorem po_step_some (ach : String → ℚ) (matrix : List CoPoRow) (po : String)
    (acc : ℚ × ℚ) (co : String) (w : ℚ)
    (h : lookup_co_weight matrix co po = some w) :
    po_step ach matrix po acc co =
      some (if 0 < w then
        (acc.1 + ach (co ++ "_achievement") * w, acc.2 + w) else acc) := by
  rw [po_step, h]
  by_cases hp : 0 < w <;> simp [hp]

/-- Unfolding the accumulator loop of `calculate_po_attainment_row`:
when every CO of the list has a matrix row, the loop succeeds and
accumulates the claim's numerator and denominator sums. -/
theorem po_foldlM_eq (ach : String → ℚ) (matrix : List CoPoRow) (po : String)
    (wf : String → ℚ) :
    ∀ (l : List String) (acc : ℚ × ℚ),
      (∀ co ∈ l, lookup_co_weight matrix co po = some (wf co)) →
      l.foldlM (po_step ach matrix po) acc =
        some (acc.1 + po_numerator ach wf l, acc.2 + po_denominator wf l)
  | [], acc => by
    intro _
    simp [po_numerator, po_denominator]
  | co :: l, acc => by
    intro hw
    have hco := hw co (List.mem_cons_self co l)
    have hl : ∀ c ∈ l, lookup_co_weight matrix c po = some (wf c) :=
      fun c hc => hw c (List.mem_cons_of_mem co hc)
    rw [List.foldlM_cons, po_step_some ach matrix po acc co (wf co) hco]
    by_cases hp : 0 < wf co
    · rw [if_pos hp]
      simp only [Option.bind_eq_bind, Option.some_bind,
        po_foldlM_eq ach matrix po wf l _ hl]
      simp only [po_numerator, po_denominator, List.filter_cons,
        hp, decide_True, if_true, List.map_cons, List.sum_cons,
        Option.some.injEq, Prod.mk.injEq]
      exact ⟨by ring, by ring⟩
    · rw [if_neg hp]
      simp only [Option.bind_eq_bind, Option.some_bind,
        po_foldlM_eq ach matrix po wf l _ hl]
      simp [po_numerator, po_denominator, List.filter_cons, hp]

/-- `calculate_po_attainment_row` as the claim's weighted average when
every CO of the list has a matrix row. -/
theorem po_attainment_eq (ach : String → ℚ) (matrix : List CoPoRow)
    (co_list : List String) (po : String) (wf : String → ℚ)
    (hw : ∀ co ∈ co_list, lookup_co_weight matrix co po = some (wf co)) :
    calculate_po_attainment_row ach matrix co_list po =
      some (if 0 < po_denominator wf co_list then
        po_numerator ach wf co_list / po_denominator wf co_list else 0) := by
  rw [calculate_po_attainment_row, po_foldlM_eq ach matrix po wf co_list _ hw]
  simp

/-- The loop of `calculate_po_attainment_row` aborts with `none` as soon
as some CO of the list has no matrix row. -/
theorem po_foldlM_none (ach : String → ℚ) (matrix : List CoPoRow) (po : String)
    (co : String) (hmiss : lookup_co_weight matrix co po = none) :
    ∀ (l : List String) (acc : ℚ × ℚ), co ∈ l →
      l.foldlM (po_step ach matrix po) acc = none
  | [], acc => by
    intro hmem
    exact absurd hmem (List.not_mem_nil co)
  | c :: l, acc => by
    intro hmem
    rw [List.foldlM_cons]
    rcases List.mem_cons.mp hmem with rfl | hmem2
    · rw [po_step, hmiss]
      rfl
    · cases hlook : lookup_co_weight matrix c po with
      | none =>
        rw [po_step, hlook]
        rfl
      | some w =>
        rw [po_step_some ach matrix po acc c w hlook]
        simp only [Option.bind_eq_bind, Option.some_bind]
        exact po_foldlM_none ach matrix po co hmiss l _ hmem2

/-- Per-component bound: with a non-negative weight, a positive maximum
and a mark between 0 and the maximum, the claim's numerator term is
non-negative and at most the denominator term. -/
theorem spec_term_bounds (comp : Component) (w maxm : ℚ) (co_name : String)
    (hw : 0 ≤ w) (hm : 0 < maxm)
    (hmark : ∀ m, comp.mark = some m → 0 ≤ m ∧ m ≤ maxm) :
    0 ≤ spec_num_term comp w maxm co_name ∧
      spec_num_term comp w maxm co_name ≤ spec_den_term comp w co_name := by
  rcases comp with ⟨mark, cm⟩
  rcases mark with _ | m <;> rcases cm with _ | s
  · simp [spec_num_term, spec_den_term]
  · simp [spec_num_term, spec_den_term]
  · simp [spec_num_term, spec_den_term]
  · by_cases h : co_name ∈ parse_co_mapping (some s)
    · obtain ⟨hm0, hm1⟩ := hmark m rfl
      have hlen : (1 : ℚ) ≤ (parse_co_mapping (some s)).length := by
        exact_mod_cast List.length_pos.mpr (List.ne_nil_of_mem h)
      have hshare0 : 0 ≤ m / (parse_co_mapping (some s)).length :=
        div_nonneg hm0 (by positivity)
      have hshare1 : m / (parse_co_mapping (some s)).length ≤ maxm :=
        le_trans (div_le_self hm0 hlen) hm1
      have hq0 : 0 ≤ m / (parse_co_mapping (some s)).length / maxm :=
        div_nonneg hshare0 (le_of_lt hm)
      have hq1 : m / (parse_co_mapping (some s)).length / maxm ≤ 1 :=
        (div_le_one hm).mpr hshare1
      simp only [spec_num_term, spec_den_term, if_pos h]
      exact ⟨mul_nonneg hq0 hw, by nlinarith⟩
    · simp [spec_num_term, spec_den_term, h]

/-- Every entry of the component table pairs a non-negative grading
weight with a positive maximum mark. -/
theorem row_components_wpos (row : StudentRow) :
    ∀ p ∈ row_components row, 0 ≤ p.2.1 ∧ 0 < p.2.2 := by
  intro p hp
  simp only [row_components, List.mem_cons, List.not_mem_nil, or_false] at hp
  rcases hp with h | h | h | h | h <;> subst h <;>
    exact ⟨by norm_num [weight_mid, weight_final, weight_ct,
      weight_assignment, weight_attendance], by norm_num⟩

/-- Bounds for `calculate_co_achievement`: with every mark present taken
between 0 and its component maximum, the achievement lies in [0, 100]. -/
theorem co_achievement_bounds (row : StudentRow) (co_name : String)
    (hmarks : ∀ p ∈ row_components row, ∀ m, p.1.mark = some m →
      0 ≤ m ∧ m ≤ p.2.2) :
    0 ≤ calculate_co_achievement row co_name ∧
      calculate_co_achievement row co_name ≤ 100 := by
  have hterm : ∀ p ∈ row_components row,
      0 ≤ spec_num_term p.1 p.2.1 p.2.2 co_name ∧
        spec_num_term p.1 p.2.1 p.2.2 co_name ≤ spec_den_term p.1 p.2.1 co_name := by
    intro p hp
    obtain ⟨hw, hm⟩ := row_components_wpos row p hp
    exact spec_term_bounds p.1 p.2.1 p.2.2 co_name hw hm (hmarks p hp)
  have hnum0 : 0 ≤ spec_co_numerator row co_name := by
    rw [spec_co_numerator]
    refine List.sum_nonneg ?_
    intro x hx
    obtain ⟨p, hp, rfl⟩ := List.mem_map.mp hx
    exact (hterm p hp).1
  have hnd : spec_co_numerator row co_name ≤ spec_co_denominator row co_name := by
    rw [spec_co_numerator, spec_co_denominator]
    exact List.sum_le_sum (fun p hp => (hterm p hp).2)
  rw [co_achievement_eq]
  by_cases h : 0 < spec_co_denominator row co_name
  · rw [if_pos h]
    have hratio : spec_co_numerator row co_name / spec_co_denominator row co_name ≤ 1 :=
      (div_le_one h).mpr hnd
    have hratio0 : 0 ≤ spec_co_numerator row co_name / spec_co_denominator row co_name :=
      div_nonneg hnum0 (le_of_lt h)
    exact ⟨by nlinarith, by nlinarith⟩
  · rw [if_neg h]
    norm_num

/-- Bounds for `calculate_po_attainment_row`: when every CO of the list
has a matrix row and every achievement cell lies in [0, 100], a
successfully computed attainment lies in [0, 100]. -/
theorem po_attainment_bounds (ach : String → ℚ) (matrix : List CoPoRow)
    (co_list : List String) (po : String) (wf : String → ℚ)
    (hw : ∀ co ∈ co_list, lookup_co_weight matrix co po = some (wf co))
    (hach : ∀ co ∈ co_list, 0 ≤ ach (co ++ "_achievement") ∧
      ach (co ++ "_achievement") ≤ 100) :
    ∀ v, calculate_po_attainment_row ach matrix co_list po = some v →
      0 ≤ v ∧ v ≤ 100 := by
  intro v hv
  rw [po_attainment_eq ach matrix co_list po wf hw] at hv
  have hveq := (Option.some.inj hv).symm
  subst hveq
  have hden0 : 0 ≤ po_denominator wf co_list := by
    rw [po_denominator]
    refine List.sum_nonneg ?_
    intro x hx
    obtain ⟨co, hco, rfl⟩ := List.mem_map.mp hx
    exact le_of_lt (of_decide_eq_true ((List.mem_filter.mp hco).2))
  have hnum0 : 0 ≤ po_numerator ach wf co_list := by
    rw [po_numerator]
    refine List.sum_nonneg ?_
    intro x hx
    obtain ⟨co, hco, rfl⟩ := List.mem_map.mp hx
    exact mul_nonneg (hach co ((List.mem_filter.mp hco).1)).1
      (le_of_lt (of_decide_eq_true ((List.mem_filter.mp hco).2)))
  have hbound : po_numerator ach wf co_list ≤ 100 * po_denominator wf co_list := by
    rw [po_numerator, po_denominator, ← List.sum_map_mul_left]
    refine List.sum_le_sum ?_
    intro co hco
    have hpos := of_decide_eq_true ((List.mem_filter.mp hco).2)
    have hupper := (hach co ((List.mem_filter.mp hco).1)).2
    nlinarith
  by_cases hd : 0 < po_denominator wf co_list
  · rw [if_pos hd]
    exact ⟨div_nonneg hnum0 hden0, (div_le_iff₀ hd).mpr (by nlinarith)⟩
  · rw [if_neg hd]
    norm_num

/-- A CO list whose weights are all zero for this PO filters to nothing. -/
theorem po_filter_nil (wf : String → ℚ) (l : List String)
    (h : ∀ co ∈ l, wf co = 0) :
    l.filter (fun co => decide (0 < wf co)) = [] := by
  rw [List.filter_eq_nil_iff]
  intro a ha
  simp [h a ha]

set_option maxHeartbeats 1000000 in
/-- The if/elif chain of `marks_to_grade` computes the spec's
breakpoint-table lookup. -/
theorem marks_to_grade_eq_table (p : ℚ) : marks_to_grade p = table_grade p := by
  simp only [marks_to_grade, table_grade, grade_table]
  split_ifs with h1 h2 h3 h4 h5 h6 h7 h8 h9 h10 h11 <;>
    simp [List.find?, *]

/-- A component that does not map to the CO contributes to neither of
the claim's sums. -/
theorem no_map_term_zero (comp : Component) (w maxm : ℚ) (co_name : String)
    (h : maps_to comp co_name = false) :
    spec_num_term comp w maxm co_name = 0 ∧
      spec_den_term comp w co_name = 0 := by
  rcases comp with ⟨mark, cm⟩
  rcases mark with _ | m <;> rcases cm with _ | s
  · simp [spec_num_term, spec_den_term]
  · simp [spec_num_term, spec_den_term]
  · simp [spec_num_term, spec_den_term]
  · have hmem : co_name ∉ parse_co_mapping (some s) := by
      simp only [maps_to] at h
      simpa using h
    simp [spec_num_term, spec_den_term, hmem]

/-- `component_contribution` depends on the CO-tag cell only through the
parsed tag list. -/
theorem component_contribution_congr (c1 c2 : Component) (w maxm : ℚ)
    (co_name : String) (hm : c1.mark = c2.mark)
    (hp : parse_co_mapping c1.co_mapping = parse_co_mapping c2.co_mapping) :
    component_contribution c1 w maxm co_name =
      component_contribution c2 w maxm co_name := by
  obtain ⟨m1, o1⟩ := c1
  obtain ⟨m2, o2⟩ := c2
  dsimp at hm hp
  subst hm
  rcases m1 with _ | m
  · rcases o1 with _ | s1 <;> rcases o2 with _ | s2 <;> rfl
  · rcases o1 with _ | s1 <;> rcases o2 with _ | s2
    · rfl
    · simp only [component_contribution]
      rw [← hp]
      simp [parse_co_mapping]
    · simp only [component_contribution]
      rw [hp]
      simp [parse_co_mapping]
    · simp only [component_contribution]
      rw [hp]

/-! ## Claims -/

/-- C1: for every student row and CO name, `calculate_co_achievement`
returns the weighted average of per-component CO-normalized shares —
the claim's numerator over its denominator times 100 — returns exactly 0
when no component maps to this CO, and a component that does not map
(in particular one with a missing mark or a missing/empty CO-tag string)
contributes to neither sum. -/
theorem C1_co_achievement_weighted_average (row : StudentRow) (co_name : String) :
    (calculate_co_achievement row co_name =
      if 0 < spec_co_denominator row co_name then
        spec_co_numerator row co_name / spec_co_denominator row co_name * 100
      else 0) ∧
    ((∀ p ∈ row_components row, maps_to p.1 co_name = false) →
      calculate_co_achievement row co_name = 0) ∧
    (∀ p ∈ row_components row, maps_to p.1 co_name = false →
      spec_num_term p.1 p.2.1 p.2.2 co_name = 0 ∧
        spec_den_term p.1 p.2.1 co_name = 0) := by
  refine ⟨co_achievement_eq row co_name, ?_, ?_⟩
  · intro hall
    rw [co_achievement_eq]
    have hden : spec_co_denominator row co_name = 0 := by
      rw [spec_co_denominator]
      refine List.sum_eq_zero ?_
      intro x hx
      obtain ⟨p, hp, rfl⟩ := List.mem_map.mp hx
      exact (no_map_term_zero p.1 p.2.1 p.2.2 co_name (hall p hp)).2
    rw [hden]
    norm_num
  · intro p _ h
    exact no_map_term_zero p.1 p.2.1 p.2.2 co_name h

/-- C1 applied at the scenario row and a CO that no component tags:
the achievement is exactly 0. -/
theorem C1_co_achievement_weighted_average_witness :
    calculate_co_achievement scenario_row "CO9" = 0 :=
  (C1_co_achievement_weighted_average scenario_row "CO9").2.1 (by decide)

/-- C2: for each of the 12 POs, the attainment cell equals
`sum(coAchievement[co] * weight[co,po]) / sum(weight[co,po])` over
exactly the COs of the list with positive weight, is 0 when that
denominator is 0, and an all-zero weight column yields exactly 0. -/
theorem C2_po_attainment_weighted_average (ach : String → ℚ)
    (matrix : List CoPoRow) (co_list : List String) (po : String)
    (wf : String → ℚ) (_hpo : po ∈ po_list)
    (hw : ∀ co ∈ co_list, lookup_co_weight matrix co po = some (wf co)) :
    (calculate_po_attainment_row ach matrix co_list po =
      some (if 0 < po_denominator wf co_list then
        po_numerator ach wf co_list / po_denominator wf co_list else 0)) ∧
    (po_denominator wf co_list = 0 →
      calculate_po_attainment_row ach matrix co_list po = some 0) ∧
    ((∀ co ∈ co_list, wf co = 0) →
      calculate_po_attainment_row ach matrix co_list po = some 0) := by
  have hmain := po_attainment_eq ach matrix co_list po wf hw
  refine ⟨hmain, ?_, ?_⟩
  · intro hz
    rw [hmain, hz]
    norm_num
  · intro hzz
    rw [hmain, po_denominator, po_filter_nil wf co_list hzz]
    norm_num

/-- C2 applied at a concrete two-CO matrix and PO1. -/
theorem C2_po_attainment_weighted_average_witness :
    calculate_po_attainment_row example_ach example_matrix ["CO1", "CO2"] "PO1" =
      some (if 0 < po_denominator example_wf ["CO1", "CO2"] then
        po_numerator example_ach example_wf ["CO1", "CO2"] /
          po_denominator example_wf ["CO1", "CO2"] else 0) :=
  (C2_po_attainment_weighted_average example_ach example_matrix ["CO1", "CO2"]
    "PO1" example_wf (by decide) (by decide)).1

/-- C3: a CO of the list with no row in the weight matrix makes
`calculate_po_attainment_row` fail with a lookup error (`none`), not
skip the CO or substitute a default. -/
theorem C3_missing_co_fails (ach : String → ℚ) (matrix : List CoPoRow)
    (co_list : List String) (po co : String)
    (hmem : co ∈ co_list)
    (hmiss : lookup_co_weight matrix co po = none) :
    calculate_po_attainment_row ach matrix co_list po = none := by
  rw [calculate_po_attainment_row,
    po_foldlM_none ach matrix po co hmiss co_list _ hmem]
  rfl

/-- C3 applied at a matrix that lacks the CO2 row. -/
theorem C3_missing_co_fails_witness :
    calculate_po_attainment_row example_ach example_matrix_missing
      ["CO1", "CO2"] "PO1" = none :=
  C3_missing_co_fails example_ach example_matrix_missing ["CO1", "CO2"]
    "PO1" "CO2" (by decide) (by decide)

/-- C4: `marks_to_grade` agrees with the spec's inclusive lower-bound
breakpoint table (highest match wins) on every input, and the boundaries
are exact: 90 maps to A+/4.0 and 89.999 maps to A/3.7. -/
theorem C4_marks_to_grade_breakpoints :
    (∀ p : ℚ, marks_to_grade p = table_grade p) ∧
    marks_to_grade 90 = ("A+", 4) ∧
    marks_to_grade (89999/1000) = ("A", 37/10) := by
  refine ⟨marks_to_grade_eq_table, ?_, ?_⟩
  · norm_num [marks_to_grade]
  · norm_num [marks_to_grade]

/-- C5: `calculate_total_marks` is exactly the weighted sum
`0.30*mid + 0.40*final + 0.15*ct + 0.10*assignment + 0.05*attendance`
of the raw marks, with no normalization by the component maxima; the
documented scenario (25, 35, 12, 8, 4) totals 24.3 and grades F. -/
theorem C5_total_marks_raw_weighted_sum :
    (∀ (row : StudentRow) (m f c a t : ℚ),
      row.mid.mark = some m → row.final.mark = some f →
      row.ct.mark = some c → row.assignment.mark = some a →
      row.attendance.mark = some t →
      calculate_total_marks row =
        some (3/10 * m + 2/5 * f + 3/20 * c + 1/10 * a + 1/20 * t)) ∧
    calculate_total_marks scenario_row = some (243/10) ∧
    marks_to_grade (243/10) = ("F", 0) := by
  refine ⟨?_, ?_, ?_⟩
  · intro row m f c a t hm hf hc ha ht
    simp only [calculate_total_marks, hm, hf, hc, ha, ht, Option.bind_eq_bind,
      Option.some_bind, Option.pure_def, Option.some.injEq,
      weight_mid, weight_final, weight_ct, weight_assignment, weight_attendance]
    ring
  · simp only [calculate_total_marks, scenario_row, Option.bind_eq_bind,
      Option.some_bind, Option.pure_def, Option.some.injEq,
      weight_mid, weight_final, weight_ct, weight_assignment, weight_attendance]
    norm_num
  · norm_num [marks_to_grade]

/-- C5 applied at the documented scenario row. -/
theorem C5_total_marks_raw_weighted_sum_witness :
    calculate_total_marks scenario_row =
      some (3/10 * 25 + 2/5 * 35 + 3/20 * 12 + 1/10 * 8 + 1/20 * 4) :=
  C5_total_marks_raw_weighted_sum.1 scenario_row 25 35 12 8 4
    rfl rfl rfl rfl rfl

/-- C6 (code bug): `app.py` indexes the performance-group label by the
raw cluster id, so with cluster 0 having the lowest mean grade points
(1.0 against 2.0 and 4.0) the page shows "🌟 High Performer" for it,
while the ranking labeler mandated by the spec yields
"📈 Needs Improvement" — the two labels differ. -/
theorem C6_label_by_raw_cluster_id :
    performance_group_label (some 0) = "🌟 High Performer" ∧
    example_means 0 < example_means 1 ∧
    example_means 0 < example_means 2 ∧
    ranked_label example_means 0 = "📈 Needs Improvement" ∧
    performance_group_label (some 0) ≠ ranked_label example_means 0 := by
  refine ⟨by decide, by decide, by decide, by decide, by decide⟩

/-- C7: splitting a present mark across the COs of its tag list
conserves the component's total weighted numerator contribution: summing
the per-CO contributions over the tag list gives exactly the single-CO
contribution `(mark / componentMax) * componentWeight * 100`. -/
theorem C7_share_split_conserves (m : ℚ) (s : String) (w maxm : ℚ)
    (hne : parse_co_mapping (some s) ≠ [])
    (_hnd : (parse_co_mapping (some s)).Nodup) :
    (((parse_co_mapping (some s)).map
        (fun co => (component_contribution ⟨some m, some s⟩ w maxm co).1)).sum =
      m / maxm * w * 100) ∧
    (∀ (s1 co1 : String), parse_co_mapping (some s1) = [co1] →
      (component_contribution ⟨some m, some s1⟩ w maxm co1).1 =
        m / maxm * w * 100) := by
  constructor
  · have hlen : 0 < (parse_co_mapping (some s)).length := List.length_pos.mpr hne
    have hconst : ∀ co ∈ parse_co_mapping (some s),
        (component_contribution ⟨some m, some s⟩ w maxm co).1 =
          m / (parse_co_mapping (some s)).length / maxm * w * 100 := by
      intro co hco
      simp only [component_contribution, if_pos hco, hlen, gt_iff_lt, if_true]
    rw [List.map_congr_left hconst, List.map_const', List.sum_replicate,
      nsmul_eq_mul]
    have hn : ((parse_co_mapping (some s)).length : ℚ) ≠ 0 := by
      exact_mod_cast Nat.pos_iff_ne_zero.mp hlen
    by_cases hmx : maxm = 0
    · simp [hmx]
    · field_simp
      ring
  · intro s1 co1 hps
    simp only [component_contribution, hps]
    simp

/-- C7 applied at a mark of 10 split over "CO1,CO2" against max 30 and
weight 3/10. -/
theorem C7_share_split_conserves_witness :
    ((parse_co_mapping (some "CO1,CO2")).map
        (fun co =>
          (component_contribution ⟨some (10 : ℚ), some "CO1,CO2"⟩
            (3/10) 30 co).1)).sum =
      (10 : ℚ) / 30 * (3/10) * 100 :=
  (C7_share_split_conserves 10 "CO1,CO2" (3/10) 30 (by decide) (by decide)).1

/-- C8: with no `{CO}_achievement` and no `{PO}_attainment` column
present, `student_clustering` returns the input table unchanged and an
empty cluster summary, whatever the scaling-and-clustering step would
have computed. -/
theorem C8_clustering_noop
    (cluster_step : List String → DataFrame → DataFrame × List (ℕ × ClusterInfo))
    (df : DataFrame) (co_names po_names : List String)
    (hco : ∀ co ∈ co_names, df.columns.contains (co ++ "_achievement") = false)
    (hpo : ∀ po ∈ po_names, df.columns.contains (po ++ "_attainment") = false) :
    student_clustering cluster_step df co_names po_names = (df, []) := by
  have hnil : gather_feature_names df co_names po_names = [] := by
    rw [gather_feature_names, List.append_eq_nil]
    constructor
    · rw [List.map_eq_nil_iff, List.filter_eq_nil_iff]
      intro co hc
      have := hco co hc
      simp_all
    · rw [List.map_eq_nil_iff, List.filter_eq_nil_iff]
      intro po hp
      have := hpo po hp
      simp_all
  rw [student_clustering, hnil]
  rfl

/-- C8 applied at a table with only `student_id` and `grade_points`
columns. -/
theorem C8_clustering_noop_witness :
    student_clustering (fun _ df => (df, [])) example_df ["CO1", "CO2"]
      po_list = (example_df, []) :=
  C8_clustering_noop (fun _ df => (df, [])) example_df ["CO1", "CO2"] po_list
    (by decide) (by decide)

/-- C9: with the five marks present, non-negative and at most their
fixed maxima, every CO achievement lies in [0, 100]; and from achievement
cells in [0, 100] and a matrix with rows for all listed COs carrying
non-negative weights, every computed PO attainment lies in [0, 100]. -/
theorem C9_achievement_attainment_bounds :
    (∀ (row : StudentRow) (co_name : String),
      (∀ p ∈ row_components row, ∃ m, p.1.mark = some m ∧ 0 ≤ m ∧ m ≤ p.2.2) →
      0 ≤ calculate_co_achievement row co_name ∧
        calculate_co_achievement row co_name ≤ 100) ∧
    (∀ (ach : String → ℚ) (matrix : List CoPoRow) (co_list : List String)
      (po : String) (wf : String → ℚ),
      (∀ co ∈ co_list,
        lookup_co_weight matrix co po = some (wf co) ∧ 0 ≤ wf co) →
      (∀ co ∈ co_list, 0 ≤ ach (co ++ "_achievement") ∧
        ach (co ++ "_achievement") ≤ 100) →
      ∀ v, calculate_po_attainment_row ach matrix co_list po = some v →
        0 ≤ v ∧ v ≤ 100) := by
  constructor
  · intro row co_name hmarks
    refine co_achievement_bounds row co_name ?_
    intro p hp m hm
    obtain ⟨m0, hm0, h1, h2⟩ := hmarks p hp
    have hmm : m = m0 := Option.some.inj (hm.symm.trans hm0)
    rw [hmm]
    exact ⟨h1, h2⟩
  · intro ach matrix co_list po wf hw hach v hv
    exact po_attainment_bounds ach matrix co_list po wf
      (fun co hc => (hw co hc).1) hach v hv

/-- C9 applied at the scenario row (achievement side) and at the concrete
matrix on the all-zero PO2 column (attainment side, value 0). -/
theorem C9_achievement_attainment_bounds_witness :
    (0 ≤ calculate_co_achievement scenario_row "CO1" ∧
      calculate_co_achievement scenario_row "CO1" ≤ 100) ∧
    (0 ≤ (0 : ℚ) ∧ (0 : ℚ) ≤ 100) := by
  constructor
  · refine C9_achievement_attainment_bounds.1 scenario_row "CO1" ?_
    intro p hp
    simp only [row_components, scenario_row, List.mem_cons,
      List.not_mem_nil, or_false] at hp
    rcases hp with h | h | h | h | h <;> subst h <;>
      exact ⟨_, rfl, by norm_num, by norm_num⟩
  · refine C9_achievement_attainment_bounds.2 example_ach example_matrix
      ["CO1", "CO2"] "PO2" zero_wf (by decide) (by decide) 0 (by decide)

/-- C10: `calculate_co_achievement` is invariant under whitespace around
the comma-separated CO tags: it depends on each CO-tag cell only through
its parsed tag list, and 'CO1, CO2' parses identically to 'CO1,CO2'. -/
theorem C10_whitespace_invariance :
    (∀ (r1 r2 : StudentRow) (co_name : String),
      r1.mid.mark = r2.mid.mark →
      r1.final.mark = r2.final.mark →
      r1.ct.mark = r2.ct.mark →
      r1.assignment.mark = r2.assignment.mark →
      r1.attendance.mark = r2.attendance.mark →
      parse_co_mapping r1.mid.co_mapping = parse_co_mapping r2.mid.co_mapping →
      parse_co_mapping r1.final.co_mapping =
        parse_co_mapping r2.final.co_mapping →
      parse_co_mapping r1.ct.co_mapping = parse_co_mapping r2.ct.co_mapping →
      parse_co_mapping r1.assignment.co_mapping =
        parse_co_mapping r2.assignment.co_mapping →
      parse_co_mapping r1.attendance.co_mapping =
        parse_co_mapping r2.attendance.co_mapping →
      calculate_co_achievement r1 co_name = calculate_co_achievement r2 co_name) ∧
    parse_co_mapping (some "CO1, CO2") = parse_co_mapping (some "CO1,CO2") := by
  constructor
  · intro r1 r2 co_name h1 h2 h3 h4 h5 g1 g2 g3 g4 g5
    have e1 := component_contribution_congr r1.mid r2.mid weight_mid 30
      co_name h1 g1
    have e2 := component_contribution_congr r1.final r2.final weight_final 40
      co_name h2 g2
    have e3 := component_contribution_congr r1.ct r2.ct weight_ct 15
      co_name h3 g3
    have e4 := component_contribution_congr r1.assignment r2.assignment
      weight_assignment 10 co_name h4 g4
    have e5 := component_contribution_congr r1.attendance r2.attendance
      weight_attendance 5 co_name h5 g5
    simp only [calculate_co_achievement, row_components, List.foldl_cons,
      List.foldl_nil]
    rw [e1, e2, e3, e4, e5]
  · decide

/-- C10 applied at the scenario row with and without spaces after the
commas in the tag strings. -/
theorem C10_whitespace_invariance_witness :
    calculate_co_achievement scenario_row_spaced "CO1" =
      calculate_co_achievement scenario_row "CO1" :=
  C10_whitespace_invariance.1 scenario_row_spaced scenario_row "CO1"
    rfl rfl rfl rfl rfl (by decide) (by decide) (by decide) (by decide)
    (by decide)

end CGPA
